import Mathlib

/-!
Verification development for the streamFlow resumable chunked upload engine.

Each TypeScript function relevant to the checked properties is shallowly
embedded as an executable Lean definition.  Machine numbers that stay inside
the safe-integer range are modelled as `Nat`; the one place where JavaScript
32-bit wrapping matters (the cache's string hash) uses `Int` with an explicit
wrap.  Stateful methods are modelled as explicit state-passing functions.
External collaborators that are not part of the repository (the `pako`
DEFLATE library, `JSON.stringify`/`JSON.parse`, UTF-8 text codecs) are
abstracted into a `Codec` record of function parameters; theorems that need
their round-trip contracts take those round trips as pointwise hypotheses.
-/

namespace StreamFlow

/-- Character-list prefix test, used to build the substring test below. -/
def prefixMatch : List Char → List Char → Bool
  | [], _ => true
  | _ :: _, [] => false
  | a :: as, b :: bs => a == b && prefixMatch as bs

/-- Substring occurrence test on character lists. -/
def subMatch (needle : List Char) : List Char → Bool
  | [] => needle.isEmpty
  | c :: rest => prefixMatch needle (c :: rest) || subMatch needle rest

/-- JavaScript `hay.includes(needle)` for strings. -/
def strIncludes (hay needle : String) : Bool :=
  subMatch needle.toList hay.toList

/-- JavaScript `s.toLowerCase()` for the ASCII strings involved here. -/
def lowerStr (s : String) : String := String.mk (s.toList.map Char.toLower)

/-! ## Error manager (src/src/lib/error-manager.ts) -/

/-- TS union `ErrorType` (src/src/types/index.ts line 150). -/
inductive ErrorType where
  | network
  | server
  | validation
  | storage
  | unknown
deriving DecidableEq, Repr

/-- TS union `RetryStrategyType` (src/src/types/index.ts line 152). -/
inductive RetryStrategyType where
  | immediate
  | linear
  | exponential
  | fibonacci
deriving DecidableEq, Repr

/-- TS `RetryStrategyConditions` (src/src/types/index.ts).  The optional
`requiresUserAction` boolean is modelled as a plain `Bool` because the code
only tests its truthiness (absent behaves as `false`).  The `checkFn`
callback is never set by the code under verification and is omitted. -/
structure RetryStrategyConditions where
  skipIfErrorIncludes : Option (List String)
  requiresUserAction : Bool
deriving DecidableEq, Repr

/-- TS `RetryStrategy` (src/src/types/index.ts). -/
structure RetryStrategy where
  maxRetries : Nat
  baseDelay : Nat
  maxDelay : Nat
  strategy : RetryStrategyType
  conditions : Option RetryStrategyConditions
deriving DecidableEq, Repr

/-- A JavaScript `Error` value: the fields read by the error manager. -/
structure JsError where
  name : String
  message : String
deriving DecidableEq, Repr

/-- The fields of TS `ErrorContext` (src/src/types/index.ts) that exist on
every context; only `retryCount` influences the retry decision. -/
structure ErrorContext where
  operation : String
  retryCount : Nat
  isRecoverable : Bool
deriving DecidableEq, Repr

/-- The `network` test of `ErrorManager.categorizeError` (error-manager.ts
lines 62-65): exact name match, or the lowercased message contains one of
the keywords. -/
def networkTrigger (e : JsError) : Bool :=
  let m := lowerStr e.message
  e.name == "NetworkError" || strIncludes m "network" ||
    strIncludes m "offline" || strIncludes m "connection"

/-- The `server` test of `categorizeError` (lines 69-71).  Note the middle
disjunct is `includes('5')`: any occurrence of the character `5`. -/
def serverTrigger (e : JsError) : Bool :=
  let m := lowerStr e.message
  strIncludes m "server" || strIncludes m "5" || strIncludes m "timeout"

/-- The `validation` test of `categorizeError` (lines 75-77). -/
def validationTrigger (e : JsError) : Bool :=
  let m := lowerStr e.message
  strIncludes m "validation" || strIncludes m "invalid" || strIncludes m "format"

/-- The `storage` test of `categorizeError` (lines 81-83). -/
def storageTrigger (e : JsError) : Bool :=
  let m := lowerStr e.message
  strIncludes m "storage" || strIncludes m "quota" || strIncludes m "space"

/-- `ErrorManager.categorizeError` (error-manager.ts lines 59-88): the first
matching category in the fixed order wins, otherwise `unknown`. -/
def categorizeError (e : JsError) : ErrorType :=
  if networkTrigger e then .network
  else if serverTrigger e then .server
  else if validationTrigger e then .validation
  else if storageTrigger e then .storage
  else .unknown

/-- The loop body of `ErrorManager.getFibonacciNumber`: after `n` iterations
the pair `(prev, curr)` starting from `(0, 1)`. -/
def fibPair : Nat → Nat × Nat
  | 0 => (0, 1)
  | n + 1 => ((fibPair n).2, (fibPair n).1 + (fibPair n).2)

/-- `ErrorManager.getFibonacciNumber` (error-manager.ts lines 139-147):
runs the loop `n` times and returns `prev`. -/
def getFibonacciNumber (n : Nat) : Nat := (fibPair n).1

/-- `ErrorManager.calculateNextRetryDelay` (error-manager.ts lines 112-137)
on attempt numbers `attempt ≥ 1` (the only values the caller passes; for
those, `Math.pow(2, attempt - 1)` agrees with `2 ^ (attempt - 1)` on `Nat`).
The `default` arm of the TS `switch` is unreachable because
`RetryStrategyType` has exactly the four listed constructors. -/
def calculateNextRetryDelay (s : RetryStrategy) (attempt : Nat) : Nat :=
  let delay : Nat :=
    match s.strategy with
    | .immediate => 0
    | .linear => s.baseDelay * attempt
    | .exponential => s.baseDelay * 2 ^ (attempt - 1)
    | .fibonacci => getFibonacciNumber attempt * s.baseDelay
  min delay s.maxDelay

/-- The strategy table installed by
`ErrorManager.initializeDefaultStrategies` (error-manager.ts lines 13-57),
as a lookup function; no strategy is registered for `unknown`. -/
def defaultStrategies : ErrorType → Option RetryStrategy
  | .network => some
      { maxRetries := 5, baseDelay := 1000, maxDelay := 30000,
        strategy := .exponential,
        conditions := some
          { skipIfErrorIncludes := some ["QUOTA_EXCEEDED", "PERMISSION_DENIED"],
            requiresUserAction := false } }
  | .server => some
      { maxRetries := 3, baseDelay := 2000, maxDelay := 10000,
        strategy := .linear,
        conditions := some
          { skipIfErrorIncludes := some ["NOT_FOUND", "INVALID_ARGUMENT"],
            requiresUserAction := false } }
  | .validation => some
      { maxRetries := 2, baseDelay := 0, maxDelay := 1000,
        strategy := .immediate,
        conditions := some
          { skipIfErrorIncludes := none, requiresUserAction := true } }
  | .storage => some
      { maxRetries := 3, baseDelay := 500, maxDelay := 5000,
        strategy := .exponential,
        conditions := some
          { skipIfErrorIncludes := some ["QUOTA_EXCEEDED"],
            requiresUserAction := false } }
  | .unknown => none

/-- The `(shouldRetry, retryDelay)` pair returned by
`ErrorManager.handleError` (error-manager.ts lines 149-194).  Report
construction, history logging and subscriber notification do not influence
the returned pair and are not modelled.  The skip-condition test uses the
raw (non-lowercased) message, as in the source. -/
def handleErrorDecision (strategies : ErrorType → Option RetryStrategy)
    (e : JsError) (context : ErrorContext) : Bool × Nat :=
  match strategies (categorizeError e) with
  | none => (false, 0)
  | some strategy =>
    let skip : Bool :=
      match strategy.conditions with
      | none => false
      | some conds =>
        match conds.skipIfErrorIncludes with
        | none => false
        | some l => l.any (fun s => strIncludes e.message s)
    if skip then (false, 0)
    else if (match strategy.conditions with
             | none => false
             | some conds => conds.requiresUserAction) then (false, 0)
    else if strategy.maxRetries ≤ context.retryCount then (false, 0)
    else (true, calculateNextRetryDelay strategy (context.retryCount + 1))

/-! ## State manager (src/src/lib/state-manager.ts) -/

/-- The fields of the persisted TS `UploadState` that the verified
operations read or write.  `uploadedChunks` is the JS array of chunk
indices in push order. -/
structure UploadState where
  totalChunks : Nat
  uploadedChunks : List Nat
  bytesUploaded : Nat
  lastUpdateTime : Nat
deriving DecidableEq, Repr

/-- `StateManager.updateProgress` (state-manager.ts lines 203-217) on a
present state: sets `bytesUploaded` to the argument, stamps
`lastUpdateTime := now`, and appends `chunkIndex` to `uploadedChunks`
unless already present. -/
def updateProgress (st : UploadState) (now chunkIndex bytesUploaded : Nat) :
    UploadState :=
  let st := { st with bytesUploaded := bytesUploaded, lastUpdateTime := now }
  if st.uploadedChunks.contains chunkIndex then st
  else { st with uploadedChunks := st.uploadedChunks ++ [chunkIndex] }

/-- The success path of `ResumableUploadManager.uploadChunkWithRetry`
(resumable-upload-manager.ts lines 117-133): after a successful POST of
chunk `i` it calls `updateProgress fileId i chunkState.size`, where
`chunkState.size` is the size of that single chunk (`sizes i`). -/
def recordChunkSuccess (sizes : Nat → Nat) (now : Nat) (st : UploadState)
    (i : Nat) : UploadState :=
  updateProgress st now i (sizes i)

/-- A sequence of successful per-chunk uploads recorded through
`updateProgress`, in the order the chunks completed. -/
def runChunkSuccesses (sizes : Nat → Nat) (now : Nat) (st : UploadState)
    (completed : List Nat) : UploadState :=
  completed.foldl (recordChunkSuccess sizes now) st

/-- Sum of per-chunk sizes over the recorded `uploadedChunks` set. -/
def sumUploadedSizes (sizes : Nat → Nat) (st : UploadState) : Nat :=
  (st.uploadedChunks.map sizes).sum

/-- `StateManager.getResumableChunks` (state-manager.ts lines 228-236) on a
present state: `Array.from({length: totalChunks}, (_, i) => i)` filtered to
the indices not contained in `uploadedChunks`. -/
def getResumableChunks (st : UploadState) : List Nat :=
  (List.range st.totalChunks).filter (fun i => !(st.uploadedChunks.contains i))

/-- The `remainingChunks` computation of
`ResumableUploadManager.performUpload` (resumable-upload-manager.ts lines
213-218): the state's `totalChunks` is first overwritten with the freshly
computed chunk count, then on resume the remaining set is
`getResumableChunks`, otherwise all indices.  `performUpload` then POSTs
(via `uploadChunkWithRetry`) exactly the chunks with these indices. -/
def performUploadRemainingChunks (isResume : Bool) (st : UploadState)
    (numChunks : Nat) : List Nat :=
  let st := { st with totalChunks := numChunks }
  if isResume then getResumableChunks st else List.range numChunks

/-! ## Security manager (src/unnamed/part_004, `SecurityManager`) -/

/-- The `rateLimit` block of the merged `SecurityConfig` (part_004 lines
23-27); after defaulting all fields are present numbers. -/
structure RateLimitConfig where
  enabled : Bool
  maxRequestsPerMinute : Nat
  maxConcurrentUploads : Nat
deriving DecidableEq, Repr

/-- TS `RateLimitInfo` (src/src/types/index.ts lines 305-308): admission
timestamps and the live-upload counter for one user. -/
structure RateLimitInfo where
  requests : List Nat
  concurrentUploads : Nat
deriving DecidableEq, Repr

/-- `SecurityManager.checkRateLimit` (part_004 lines 192-221) acting on one
user's entry; returns the admission verdict and the entry as left in the
table.  On the deny paths the pruned `requests` array is still persisted
because the source mutates the map's own object in place. -/
def checkRateLimit (cfg : RateLimitConfig) (now : Nat) (info : RateLimitInfo) :
    Bool × RateLimitInfo :=
  if !cfg.enabled then (true, info)
  else
    let reqs := info.requests.filter (fun time => now - time < 60000)
    if cfg.maxRequestsPerMinute ≤ reqs.length then
      (false, { requests := reqs, concurrentUploads := info.concurrentUploads })
    else if cfg.maxConcurrentUploads ≤ info.concurrentUploads then
      (false, { requests := reqs, concurrentUploads := info.concurrentUploads })
    else
      (true, { requests := reqs ++ [now],
               concurrentUploads := info.concurrentUploads + 1 })

/-- `SecurityManager.releaseRateLimit` (part_004 lines 223-229) on a present
entry: `Math.max(0, concurrentUploads - 1)`, requests untouched. -/
def releaseRateLimit (info : RateLimitInfo) : RateLimitInfo :=
  { requests := info.requests,
    concurrentUploads := max 0 (info.concurrentUploads - 1) }

/-- The `accessControl` block of the merged `SecurityConfig` (part_004 lines
28-32); `tokenExpiration` is in seconds. -/
structure AccessControlConfig where
  enabled : Bool
  tokenExpiration : Nat
  maxTokensPerUser : Nat
deriving DecidableEq, Repr

/-- The merged defaults (part_004 lines 29-31): enabled, 3600 s, 5 tokens. -/
def defaultAccessControl : AccessControlConfig :=
  { enabled := true, tokenExpiration := 3600, maxTokensPerUser := 5 }

/-- The millisecond delay passed to `setTimeout` by
`SecurityManager.generateAccessToken` (part_004 line 249).  The source
writes `this.config.accessControl.tokenExpiration ?? 0 * 1000`; since `*`
binds tighter than `??`, this is `tokenExpiration ?? (0 * 1000)`, and with
the merged config the field is present, so the delay is `tokenExpiration`
itself — a value in seconds used as milliseconds. -/
def scheduledDeletionDelayMs (cfg : AccessControlConfig) : Nat :=
  cfg.tokenExpiration

/-- Whether a token generated at `t0` (the `epochMs` embedded in the token)
is still in `activeTokens` at time `t`: the deletion timer scheduled by
`generateAccessToken` fires `scheduledDeletionDelayMs` after issuance and
removes it (no other removal applies to an unrevoked token under the
per-user cap). -/
def tokenInActiveSet (cfg : AccessControlConfig) (t0 t : Nat) : Bool :=
  decide (t < t0 + scheduledDeletionDelayMs cfg)

/-- `SecurityManager.validateAccessToken` (part_004 lines 254-269) evaluated
at time `t` on a token generated at `t0`: false unless the token is still in
the active set, then false if `tokenAge > tokenExpiration * 1000`, else
true. -/
def validateAccessTokenAt (cfg : AccessControlConfig) (t0 t : Nat) : Bool :=
  if !cfg.enabled then true
  else if !tokenInActiveSet cfg t0 t then false
  else if cfg.tokenExpiration * 1000 < t - t0 then false
  else true

/-! ## Chunking (src/src/lib/chunking.ts) -/

/-- Ceiling division, the value of `Math.ceil(a / b)` on naturals. -/
def ceilDiv (a b : Nat) : Nat := (a + b - 1) / b

/-- A `File`: the fields the chunker reads.  A `Blob` produced by
`file.slice(start, end)` is modelled by its byte list; the `contentType`
argument of `slice` (the sanitized MIME string) does not affect the bytes
and is not modelled. -/
structure SFile where
  name : String
  mimeType : String
  lastModified : Nat
  bytes : List Nat
deriving DecidableEq, Repr

/-- JS `file.size`. -/
def SFile.size (f : SFile) : Nat := f.bytes.length

/-- The byte list of `blob.slice(s, e)`. -/
def sliceBytes (l : List Nat) (s e : Nat) : List Nat := (l.drop s).take (e - s)

/-- The TS `type` discriminant of a chunk. -/
inductive ChunkType where
  | binary
  | lines
deriving DecidableEq, Repr

/-- TS `ChunkData = Blob | string[][]` (chunking.ts line 8). -/
inductive ChunkData where
  | binary (bytes : List Nat)
  | lines (rows : List (List String))
deriving DecidableEq, Repr

/-- TS `Chunk` (chunking.ts lines 10-15).  The `type` discriminant is
carried by the `ChunkData` constructor (every chunk the source constructs
tags `type` consistently with `data`); the projection `Chunk.type` recovers
it. -/
structure Chunk where
  data : ChunkData
  index : Nat
  total : Nat
deriving DecidableEq, Repr

/-- The `type` field of a chunk, determined by its data. -/
def Chunk.type (c : Chunk) : ChunkType :=
  match c.data with
  | .binary _ => .binary
  | .lines _ => .lines

/-- TS `ChunkingConfig`: `{ type: 'size' | 'lines', value: N }`. -/
inductive ChunkingKind where
  | size
  | lines
deriving DecidableEq, Repr

structure ChunkingConfig where
  kind : ChunkingKind
  value : Nat
deriving DecidableEq, Repr

/-- TS `FileTypeConfig` (the fields the chunker reads). -/
structure FileTypeConfig where
  mimeTypes : List String
  maxSize : Option Nat
  chunking : ChunkingConfig
deriving DecidableEq, Repr

/-- TS `ChunkValidationResult` (part_007 lines 4-8); the `warnings` array is
only ever printed with `console.warn` and is not modelled. -/
structure ChunkValidationResult where
  valid : Bool
  error : Option String
deriving DecidableEq, Repr

/-- `ChunkProcessor.validateChunk` (part_007 lines 43-80).  For a `binary`
chunk, `valid` is false only when `data` is not a `Blob`; for a `lines`
chunk, only when `data` is not an array.  Size and line-count overruns only
add warnings.  In this typed embedding the data always matches its
discriminant, so the result is always valid; both arms are kept to mirror
the source's checks. -/
def validateChunk (chunk : Chunk) (config : FileTypeConfig) :
    ChunkValidationResult :=
  match chunk.type, chunk.data with
  | .binary, .binary _ => { valid := true, error := none }
  | .binary, .lines _ =>
      { valid := false, error := some "Invalid binary chunk data type" }
  | .lines, .lines _ => { valid := true, error := none }
  | .lines, .binary _ =>
      { valid := false, error := some "Invalid lines chunk data type" }

/-- `ChunkProcessor.processChunk` (part_007 lines 101-142) returns exactly
`validateChunk`'s result; its progress bookkeeping does not affect it. -/
def processChunk (chunk : Chunk) (config : FileTypeConfig) :
    ChunkValidationResult :=
  validateChunk chunk config

/-- The `while (start < file.size)` loop of `createSizeBasedChunks`
(chunking.ts lines 123-144), carrying `start` and `index`; each produced
chunk is `file.slice(start, min(start + chunkSize, size))` with the
precomputed `total`, validated through the processor (a failed validation
throws). -/
def sizeChunksLoop (fileBytes : List Nat) (chunkSize : Nat)
    (hN : 0 < chunkSize) (config : FileTypeConfig) (total : Nat)
    (start index : Nat) : Except String (List Chunk) :=
  if h : start < fileBytes.length then
    let chunk : Chunk :=
      { data := ChunkData.binary
          (sliceBytes fileBytes start (min (start + chunkSize) fileBytes.length)),
        index := index, total := total }
    if (processChunk chunk config).valid then
      match sizeChunksLoop fileBytes chunkSize hN config total
          (min (start + chunkSize) fileBytes.length) (index + 1) with
      | .ok rest => .ok (chunk :: rest)
      | .error e => .error e
    else .error "Chunk validation failed"
  else .ok []
termination_by fileBytes.length - start
decreasing_by
  have h1 : start < min (start + chunkSize) fileBytes.length := by
    exact lt_min (by omega) h
  omega

/-- `createSizeBasedChunks` (chunking.ts lines 107-147):
`totalChunks = Math.ceil(file.size / chunkSize)`, then the slicing loop from
`start = 0`, `index = 0`.  The hypothesis `0 < chunkSize` reflects that the
source loop does not terminate for `chunkSize = 0`. -/
def createSizeBasedChunks (file : SFile) (chunkSize : Nat)
    (hN : 0 < chunkSize) (config : FileTypeConfig) :
    Except String (List Chunk) :=
  sizeChunksLoop file.bytes chunkSize hN config
    (ceilDiv file.size chunkSize) 0 0

/-! ## Chunk compressor (src/unnamed/part_008, `ChunkCompressor`) -/

/-- The external functions the compressor composes: `pako.deflate` /
`pako.inflate` (a third-party DEFLATE library), `JSON.stringify` /
`JSON.parse` on `string[][]` values, and the UTF-8 text codec.  They are
parameters of the embedding; theorems that rely on their round-trip
contracts state those contracts as hypotheses. -/
structure Codec where
  deflate : List Nat → List Nat
  inflate : List Nat → List Nat
  stringify : List (List String) → String
  parseRows : String → Option (List (List String))
  strToBytes : String → List Nat
  bytesToStr : List Nat → String

/-- The sizes recorded by TS `CompressionStats` (part_008 lines 4-9); the
`compressionRatio` and wall-clock `compressionTime` fields are
floating-point / timing values and are not modelled. -/
structure CompressionStats where
  originalSize : Nat
  compressedSize : Nat
deriving DecidableEq, Repr

/-- TS `CompressedChunk extends Chunk` (part_008 lines 11-14).  Unlike
`Chunk`, the `type` discriminant must be stored explicitly: after
compression the payload is always a binary blob while `type` keeps the
original chunk's tag. -/
structure CompressedChunk where
  data : ChunkData
  index : Nat
  total : Nat
  ctype : ChunkType
  compressed : Bool
  compressionStats : Option CompressionStats
deriving DecidableEq, Repr

/-- `ChunkCompressor.compressBlob` (part_008 lines 25-40) without the
timing side channel. -/
def compressBlob (κ : Codec) (blobBytes : List Nat) :
    List Nat × CompressionStats :=
  let compressed := κ.deflate blobBytes
  (compressed,
   { originalSize := blobBytes.length, compressedSize := compressed.length })

/-- `ChunkCompressor.compressStringArray` (part_008 lines 42-62):
JSON-encode, UTF-8 encode, then deflate. -/
def compressStringArray (κ : Codec) (rows : List (List String)) :
    List Nat × CompressionStats :=
  let uint8Array := κ.strToBytes (κ.stringify rows)
  let compressed := κ.deflate uint8Array
  (compressed,
   { originalSize := uint8Array.length, compressedSize := compressed.length })

/-- `ChunkCompressor.compress` (part_008 lines 75-97): branches on the
chunk's type, replaces `data` with the deflated blob, keeps `index`,
`total` and `type` via object spread, and sets `compressed := true`. -/
def compress (κ : Codec) (chunk : Chunk) : CompressedChunk :=
  match chunk.data with
  | .binary blobBytes =>
    let r := compressBlob κ blobBytes
    { data := .binary r.1, index := chunk.index, total := chunk.total,
      ctype := chunk.type, compressed := true, compressionStats := some r.2 }
  | .lines rows =>
    let r := compressStringArray κ rows
    { data := .binary r.1, index := chunk.index, total := chunk.total,
      ctype := chunk.type, compressed := true, compressionStats := some r.2 }

/-- `ChunkCompressor.decompressStringArray` (part_008 lines 70-73):
`pako.inflate(..., {to: 'string'})` (inflate, then UTF-8 decode) followed by
`JSON.parse`; a parse failure is a thrown exception, modelled by `none`. -/
def decompressStringArray (κ : Codec) (compressed : List Nat) :
    Option (List (List String)) :=
  κ.parseRows (κ.bytesToStr (κ.inflate compressed))

/-- `ChunkCompressor.decompress` (part_008 lines 99-122): an uncompressed
chunk is returned unchanged; otherwise the payload is inflated, and for a
`lines` chunk additionally JSON-parsed back into rows.  `none` models the
TypeError thrown by the `as Blob` cast when a compressed chunk's payload is
not a blob (never the case for chunks produced by `compress`). -/
def decompress (κ : Codec) (chunk : CompressedChunk) : Option Chunk :=
  if !chunk.compressed then
    some { data := chunk.data, index := chunk.index, total := chunk.total }
  else
    match chunk.ctype, chunk.data with
    | .binary, .binary blobBytes =>
      some { data := .binary (κ.inflate blobBytes), index := chunk.index,
             total := chunk.total }
    | .lines, .binary blobBytes =>
      (decompressStringArray κ blobBytes).map
        (fun rows => { data := .lines rows, index := chunk.index,
                       total := chunk.total })
    | _, .lines _ => none

/-- `ChunkCompressor.shouldCompress` (part_008 lines 124-131): payload size
(bytes for binary, JSON-encoded byte length for lines) strictly above
1 KiB. -/
def shouldCompress (κ : Codec) (chunk : Chunk) : Bool :=
  let size :=
    match chunk.data with
    | .binary blobBytes => blobBytes.length
    | .lines rows => (κ.strToBytes (κ.stringify rows)).length
  1024 < size

/-! ## Chunk cache (src/unnamed/part_005, `ChunkCache`) -/

/-- Signed 32-bit wrap, the effect of JavaScript `| 0`. -/
def wrap32 (x : Int) : Int :=
  let m := ((x % 4294967296) + 4294967296) % 4294967296
  if m < 2147483648 then m else m - 4294967296

/-- One step of the string hash in `ChunkCache.generateHash` (part_005
lines 38-41): `((hash << 5) - hash) + charCode | 0` where `hash` is already
a 32-bit integer, so `hash << 5` wraps `hash * 32`. -/
def hashStep (hash : Int) (code : Nat) : Int :=
  wrap32 (wrap32 (hash * 32) - hash + code)

/-- The fold of `generateHash` over the content string; `charCodeAt` agrees
with the code point for the basic-multilingual-plane strings involved. -/
def jsStringHash (s : String) : Int :=
  s.toList.foldl (fun h c => hashStep h c.toNat) 0

/-- A base-36 digit, matching `Number.prototype.toString(36)`. -/
def base36Digit (n : Nat) : Char :=
  if n < 10 then Char.ofNat (48 + n) else Char.ofNat (87 + n)

/-- Base-36 digits of a natural number, most significant first. -/
def natToBase36Aux (n : Nat) (acc : List Char) : List Char :=
  if h : n < 36 then base36Digit n :: acc
  else natToBase36Aux (n / 36) (base36Digit (n % 36) :: acc)
termination_by n
decreasing_by exact Nat.div_lt_self (by omega) (by omega)

/-- JS `n.toString(36)` for a natural number. -/
def natToBase36 (n : Nat) : String := String.mk (natToBase36Aux n [])

/-- JS `x.toString(36)` for a (possibly negative) 32-bit integer. -/
def intToBase36 (x : Int) : String :=
  if x < 0 then "-" ++ natToBase36 x.natAbs else natToBase36 x.toNat

/-- `ChunkCache.generateHash` (part_005 lines 33-43) on a cached
(compressed) chunk: the hashed content is `size.toString() + index` for a
`binary`-typed chunk and `JSON.stringify(data) + index` for a `lines`-typed
one — where after compression `data` is a `Blob`, which `JSON.stringify`
renders as "\x7b\x7d".  The arm pairing a `binary` type with row data
mirrors the `as Blob` cast that would throw in TS; it is unreachable for
chunks the cache stores. -/
def generateHash (κ : Codec) (chunk : CompressedChunk) : String :=
  let content : String :=
    match chunk.ctype, chunk.data with
    | .binary, .binary blobBytes =>
        Nat.repr blobBytes.length ++ Nat.repr chunk.index
    | .binary, .lines _ => ""
    | .lines, .lines rows => κ.stringify rows ++ Nat.repr chunk.index
    | .lines, .binary _ => "\x7b\x7d" ++ Nat.repr chunk.index
  intToBase36 (jsStringHash content)

/-- One entry of the cache `Map` (part_005 lines 4-8). -/
structure CacheEntry where
  chunk : CompressedChunk
  timestamp : Nat
  hash : String

/-- The `ChunkCache` object: the `Map` (an insertion-ordered association
list with unique keys, as in JS), `maxSize` and `maxAge`. -/
structure ChunkCacheState where
  cache : List (String × CacheEntry)
  maxSize : Nat
  maxAge : Nat

/-- `new ChunkCache(maxSize, maxAge)` (part_005 lines 26-31): an empty map. -/
def ChunkCache.new (maxSize maxAge : Nat) : ChunkCacheState :=
  { cache := [], maxSize := maxSize, maxAge := maxAge }

/-- JS `Map.get`. -/
def assocGet (l : List (String × CacheEntry)) (k : String) :
    Option CacheEntry :=
  (l.find? (fun e => e.1 == k)).map (fun e => e.2)

/-- JS `Map.set`: updates in place if the key is present, else appends. -/
def assocSet (l : List (String × CacheEntry)) (k : String) (v : CacheEntry) :
    List (String × CacheEntry) :=
  if l.any (fun e => e.1 == k) then
    l.map (fun e => if e.1 == k then (k, v) else e)
  else l ++ [(k, v)]

/-- JS `Map.delete`. -/
def assocDelete (l : List (String × CacheEntry)) (k : String) :
    List (String × CacheEntry) :=
  l.filter (fun e => !(e.1 == k))

/-- `ChunkCache.cleanExpired` (part_005 lines 92-99): drop entries with
`now - timestamp > maxAge`. -/
def cleanExpired (now : Nat) (st : ChunkCacheState) : ChunkCacheState :=
  { st with cache :=
      st.cache.filter (fun e => !(st.maxAge < now - e.2.timestamp)) }

/-- The key of the entry with the smallest timestamp, earliest-inserted
first on ties — the head of the stable sort in `ChunkCache.set` (part_005
lines 50-53). -/
def oldestKey (l : List (String × CacheEntry)) : Option String :=
  (l.foldl
    (fun acc e =>
      match acc with
      | none => some e
      | some b => if e.2.timestamp < b.2.timestamp then some e else some b)
    none).map (fun e => e.1)

/-- `ChunkCache.set` (part_005 lines 45-67): expire-sweep, evict the oldest
entry if full, then store the chunk compressed when `shouldCompress`, else
with `compressed: false`, stamped with `now` and its hash.  (With
`maxSize = 0` and an empty map the source would crash indexing the empty
sorted array; that arm keeps the state unchanged and is unreachable for the
positive default `maxSize = 100`.) -/
def ChunkCache.set (κ : Codec) (now : Nat) (st : ChunkCacheState)
    (key : String) (chunk : Chunk) : ChunkCacheState :=
  let st := cleanExpired now st
  let st :=
    if st.maxSize ≤ st.cache.length then
      match oldestKey st.cache with
      | some k => { st with cache := assocDelete st.cache k }
      | none => st
    else st
  let compressedChunk :=
    if shouldCompress κ chunk then compress κ chunk
    else { data := chunk.data, index := chunk.index, total := chunk.total,
           ctype := chunk.type, compressed := false, compressionStats := none }
  let entry : CacheEntry :=
    { chunk := compressedChunk, timestamp := now,
      hash := generateHash κ compressedChunk }
  { st with cache := assocSet st.cache key entry }

/-- `ChunkCache.get` (part_005 lines 69-90): miss on absence; evict-and-miss
on expiry or on a hash mismatch; otherwise return the chunk, decompressed if
it was stored compressed. -/
def ChunkCache.get (κ : Codec) (now : Nat) (st : ChunkCacheState)
    (key : String) : Option Chunk × ChunkCacheState :=
  match assocGet st.cache key with
  | none => (none, st)
  | some entry =>
    if st.maxAge < now - entry.timestamp then
      (none, { st with cache := assocDelete st.cache key })
    else if !(generateHash κ entry.chunk == entry.hash) then
      (none, { st with cache := assocDelete st.cache key })
    else if entry.chunk.compressed then
      (decompress κ entry.chunk, st)
    else
      (some { data := entry.chunk.data, index := entry.chunk.index,
              total := entry.chunk.total }, st)

/-! ## createChunks (src/src/lib/chunking.ts lines 63-105) -/

/-- TS `ChunkingOptions.caching` (chunking.ts lines 63-70). -/
structure CachingOptions where
  enabled : Bool
  maxSize : Option Nat
  maxAge : Option Nat

structure ChunkingOptions where
  caching : Option CachingOptions

/-- `createChunks` (chunking.ts lines 72-105).  A fresh `ChunkCache` is
constructed inside every call (line 80), so the `get` on line 87 always
consults an empty map.  The dispatch between `createSizeBasedChunks` and
`createLineBasedChunks` on `config.chunking.type` is abstracted as the
`produce` parameter: the caching wrapper treats the produced list
opaquely.  The `cache.set` calls on line 101 mutate only the local cache,
which is discarded on return; they are modelled by the fold whose result is
dropped. -/
def createChunksModel (κ : Codec) (now : Nat)
    (produce : SFile → FileTypeConfig → Except String (List Chunk))
    (file : SFile) (config : FileTypeConfig) (options : ChunkingOptions) :
    Except String (List Chunk) :=
  let cache : Option ChunkCacheState :=
    match options.caching with
    | some c =>
      if c.enabled then
        some (ChunkCache.new (c.maxSize.getD 100) (c.maxAge.getD 300000))
      else none
    | none => none
  let cacheKey := file.name ++ "-" ++ Nat.repr file.size ++ "-" ++
    Nat.repr file.lastModified
  match cache with
  | some st =>
    match (ChunkCache.get κ now st cacheKey).1 with
    | some cachedChunks => .ok [cachedChunks]
    | none =>
      match produce file config with
      | .error e => .error e
      | .ok chunks =>
        let _ := chunks.foldl (fun s c => ChunkCache.set κ now s cacheKey c) st
        .ok chunks
  | none => produce file config

/-! ## Spec-side definitions and concrete fixtures -/

/-- Helper for `leadingFiveDigit`: scans with the previous character. -/
def leadingFiveAux : Option Char → List Char → Bool
  | _, [] => false
  | prev, c :: rest =>
    (c == '5' && (match prev with
                  | none => true
                  | some p => !p.isDigit)) || leadingFiveAux (some c) rest

/-- Spec-side reading of "a leading digit 5" (spec table row for `server`):
the string contains a `5` that is not preceded by another digit, i.e. the
leading digit of some digit run is `5`. -/
def leadingFiveDigit (s : String) : Bool := leadingFiveAux none s.toList

/-- A concrete error whose message contains `5` only as the second digit of
`25`: no keyword of any category, and no leading digit `5`. -/
def err25 : JsError := { name := "Error", message := "25 items missing" }

/-- A codec instance for witnesses: identity DEFLATE, with the JSON/UTF-8
legs chosen arbitrarily (they are irrelevant for binary chunks). -/
def idCodec : Codec :=
  { deflate := id, inflate := id, stringify := fun _ => "",
    parseRows := fun _ => none, strToBytes := fun _ => [],
    bytesToStr := fun _ => "" }

/-- A concrete five-byte file used by witnesses. -/
def wFile : SFile :=
  { name := "f.bin", mimeType := "application/octet-stream",
    lastModified := 0, bytes := [10, 11, 12, 13, 14] }

/-- A concrete size-mode configuration (chunk size 2) used by witnesses. -/
def wConfig : FileTypeConfig :=
  { mimeTypes := ["*/*"], maxSize := none,
    chunking := { kind := .size, value := 2 } }

/-- A concrete rate-limit configuration used by the rate-limit witness. -/
def wRateCfg : RateLimitConfig :=
  { enabled := true, maxRequestsPerMinute := 2, maxConcurrentUploads := 3 }

/-- A concrete per-user rate-limit entry: admissions at 0 ms and 30000 ms,
one live upload. -/
def wRateInfo : RateLimitInfo :=
  { requests := [0, 30000], concurrentUploads := 1 }

/-! ## Theorems -/

/-- Helper: the loop pair of `getFibonacciNumber` computes consecutive
Fibonacci numbers. -/
theorem fibPair_eq (n : Nat) : fibPair n = (Nat.fib n, Nat.fib (n + 1)) := by
  induction n with
  | zero => rfl
  | succ n ih =>
    simp only [fibPair, ih]
    exact Prod.ext rfl (Nat.fib_add_two).symm

/-- Helper: `List.contains` on `Nat` agrees with membership. -/
theorem contains_iff_mem (l : List Nat) (a : Nat) :
    l.contains a = true ↔ a ∈ l := by
  induction l with
  | nil => simp
  | cons h t ih => simp_all [List.contains]

/-- C7: for every retry strategy and attempt `k ≥ 1` the computed delay is
`min maxDelay d` with `d = 0` (immediate), `base·k` (linear),
`base·2^(k-1)` (exponential), or `fib(k)·base` (fibonacci, with
`fib 1 = fib 2 = 1` as in `Nat.fib`). -/
theorem calculateNextRetryDelay_spec (s : RetryStrategy) (k : Nat)
    (hk : 1 ≤ k) :
    calculateNextRetryDelay s k =
      min s.maxDelay
        (match s.strategy with
         | .immediate => 0
         | .linear => s.baseDelay * k
         | .exponential => s.baseDelay * 2 ^ (k - 1)
         | .fibonacci => Nat.fib k * s.baseDelay) := by
  have hfib : getFibonacciNumber k = Nat.fib k := by
    simp [getFibonacciNumber, fibPair_eq]
  cases hs : s.strategy <;>
    simp [calculateNextRetryDelay, hs, hfib, Nat.min_comm]

/-- Witness for C7: the default network strategy (exponential, base 1000,
cap 30000) at attempt 3. -/
theorem calculateNextRetryDelay_spec_witness :
    1 ≤ 3 ∧
      calculateNextRetryDelay
        ({ maxRetries := 5, baseDelay := 1000, maxDelay := 30000,
           strategy := .exponential, conditions := none }) 3 =
        min 30000 (1000 * 2 ^ (3 - 1)) :=
  ⟨by decide, calculateNextRetryDelay_spec _ 3 (by decide)⟩

/-- C8 counterexample: the message "25 items missing" is classified
`server` by the code, yet it contains no "server", no "timeout", and no
leading digit `5` (its only `5` follows the digit `2`), so the claimed
characterization of `server` fails at this input. -/
theorem categorizeError_counterexample :
    categorizeError err25 = ErrorType.server ∧
    strIncludes (lowerStr err25.message) "server" = false ∧
    leadingFiveDigit (lowerStr err25.message) = false ∧
    strIncludes (lowerStr err25.message) "timeout" = false ∧
    networkTrigger err25 = false := by
  decide

/-- C8 amended: classification is by the code's first-match rule where the
`server` trigger is containment of the character `5` anywhere in the
lowercased message (not just a leading digit `5`); all message tests are on
the lowercased message and the name test is an exact match. -/
theorem categorizeError_amended_spec (e : JsError) :
    (categorizeError e = .network ↔ networkTrigger e = true)
    ∧ (categorizeError e = .server ↔
        (networkTrigger e = false ∧ serverTrigger e = true))
    ∧ (categorizeError e = .validation ↔
        (networkTrigger e = false ∧ serverTrigger e = false ∧
         validationTrigger e = true))
    ∧ (categorizeError e = .storage ↔
        (networkTrigger e = false ∧ serverTrigger e = false ∧
         validationTrigger e = false ∧ storageTrigger e = true))
    ∧ (categorizeError e = .unknown ↔
        (networkTrigger e = false ∧ serverTrigger e = false ∧
         validationTrigger e = false ∧ storageTrigger e = false)) := by
  unfold categorizeError
  cases h1 : networkTrigger e <;> cases h2 : serverTrigger e <;>
    cases h3 : validationTrigger e <;> cases h4 : storageTrigger e <;>
      simp

/-- C10: with the default strategy table (no entry for `unknown`), an error
that classifies as `unknown` is never retried: `handleError` returns
`(shouldRetry := false, retryDelay := 0)` for every context. -/
theorem handleError_unknown_no_retry (e : JsError) (ctx : ErrorContext)
    (h : categorizeError e = .unknown) :
    handleErrorDecision defaultStrategies e ctx = (false, 0) := by
  simp [handleErrorDecision, h, defaultStrategies]

/-- Witness for C10: the message "oops" matches no category keywords. -/
theorem handleError_unknown_no_retry_witness :
    categorizeError { name := "Error", message := "oops" } = .unknown ∧
      handleErrorDecision defaultStrategies
        { name := "Error", message := "oops" }
        { operation := "uploadChunk", retryCount := 0, isRecoverable := true } =
        (false, 0) :=
  ⟨by decide, handleError_unknown_no_retry _ _ (by decide)⟩

/-- C1 (bug evidence): recording two successful chunk uploads of 100 bytes
each (indices 0 then 1) through `updateProgress`, as the per-chunk retry
wrapper does, leaves `bytesUploaded = 100` — the size of the last chunk —
while the sum of sizes over `uploadedChunks = [0, 1]` is 200:
`updateProgress` overwrites `bytesUploaded` with the single chunk's size
instead of accumulating. -/
theorem updateProgress_overwrites_bytesUploaded :
    (runChunkSuccesses (fun _ => 100) 0
        { totalChunks := 2, uploadedChunks := [], bytesUploaded := 0,
          lastUpdateTime := 0 } [0, 1]).bytesUploaded = 100
    ∧ (runChunkSuccesses (fun _ => 100) 0
        { totalChunks := 2, uploadedChunks := [], bytesUploaded := 0,
          lastUpdateTime := 0 } [0, 1]).uploadedChunks = [0, 1]
    ∧ sumUploadedSizes (fun _ => 100)
        (runChunkSuccesses (fun _ => 100) 0
          { totalChunks := 2, uploadedChunks := [], bytesUploaded := 0,
            lastUpdateTime := 0 } [0, 1]) = 200 := by
  decide

/-- C3: `getResumableChunks` returns exactly the indices below
`totalChunks` that are not in `uploadedChunks`, in strictly ascending
order, and on resume `performUpload` derives precisely this list as the set
of chunks to POST. -/
theorem getResumableChunks_spec (st : UploadState) :
    (∀ i, i ∈ getResumableChunks st ↔
      i < st.totalChunks ∧ i ∉ st.uploadedChunks)
    ∧ List.Sorted (· < ·) (getResumableChunks st)
    ∧ performUploadRemainingChunks true st st.totalChunks =
        getResumableChunks st := by
  refine ⟨fun i => ?_, ?_, ?_⟩
  · simp [getResumableChunks, List.mem_filter, List.mem_range,
      contains_iff_mem]
  · exact (List.sorted_lt_range st.totalChunks).filter _
  · rfl

/-- C4 (bug evidence): with the default access-control config
(`tokenExpiration = 3600` seconds) the deletion timer delay is 3600 ms —
`tokenExpiration ?? 0 * 1000` parses as `tokenExpiration ?? (0 * 1000)` —
so a token is already invalid 3600 ms after issuance even though the
claimed validity bound is `tokenExpiration * 1000 = 3600000` ms. -/
theorem accessToken_timer_fires_early :
    scheduledDeletionDelayMs defaultAccessControl = 3600
    ∧ validateAccessTokenAt defaultAccessControl 0 3599 = true
    ∧ validateAccessTokenAt defaultAccessControl 0 3600 = false
    ∧ 3600 < defaultAccessControl.tokenExpiration * 1000 := by
  decide

/-- C5: with rate limiting enabled, an admission is denied when the
sliding 60-second window already holds `maxRequestsPerMinute` admissions or
the concurrency counter has reached `maxConcurrentUploads`; it succeeds as
soon as the pruned window is below the request cap and the counter below
the concurrency cap (in particular after the oldest admission ages out);
and `releaseRateLimit` decrements only the concurrency counter, never the
request history. -/
theorem checkRateLimit_spec (cfg : RateLimitConfig) (now : Nat)
    (info : RateLimitInfo) (hen : cfg.enabled = true) :
    (cfg.maxRequestsPerMinute ≤
        (info.requests.filter (fun time => now - time < 60000)).length →
      (checkRateLimit cfg now info).1 = false)
    ∧ (cfg.maxConcurrentUploads ≤ info.concurrentUploads →
        (checkRateLimit cfg now info).1 = false)
    ∧ ((info.requests.filter (fun time => now - time < 60000)).length <
          cfg.maxRequestsPerMinute →
        info.concurrentUploads < cfg.maxConcurrentUploads →
        (checkRateLimit cfg now info).1 = true)
    ∧ (releaseRateLimit info).requests = info.requests
    ∧ (releaseRateLimit info).concurrentUploads =
        info.concurrentUploads - 1 := by
  refine ⟨?_, ?_, ?_, rfl, by simp [releaseRateLimit]⟩ <;>
    · intro h1
      try intro h2
      simp only [checkRateLimit, hen, Bool.not_true, Bool.false_eq_true,
        if_false]
      split_ifs <;> first | rfl | omega

/-- Witness for C5: cap 2 requests/minute and 3 concurrent; at `now =
60000` the admission at time 0 has aged out of the window while the one at
30000 remains, one upload is live, so the next admission succeeds; release
leaves the request history untouched. -/
theorem checkRateLimit_spec_witness :
    (checkRateLimit wRateCfg 60000 wRateInfo).1 = true
    ∧ (releaseRateLimit wRateInfo).requests = [0, 30000]
    ∧ (releaseRateLimit wRateInfo).concurrentUploads = 1 - 1 :=
  ⟨(checkRateLimit_spec wRateCfg 60000 wRateInfo rfl).2.2.1
      (by decide) (by decide),
   (checkRateLimit_spec wRateCfg 60000 wRateInfo rfl).2.2.2.1,
   (checkRateLimit_spec wRateCfg 60000 wRateInfo rfl).2.2.2.2⟩

/-- C6: `createChunks` returns the produced chunk list unchanged for every
caching option — with caching enabled or disabled, and on any repeated
call — because the `ChunkCache` consulted on line 87 of chunking.ts is
freshly constructed (hence empty) inside every call; the `set` calls only
mutate that local cache, which is discarded on return. -/
theorem createChunks_cache_transparent (κ : Codec) (now : Nat)
    (produce : SFile → FileTypeConfig → Except String (List Chunk))
    (file : SFile) (config : FileTypeConfig) (options : ChunkingOptions) :
    createChunksModel κ now produce file config options =
      produce file config := by
  rcases options with ⟨caching⟩
  cases caching with
  | none => rfl
  | some c =>
    rcases c with ⟨en, ms, ma⟩
    cases en with
    | false => rfl
    | true =>
      simp only [createChunksModel, ChunkCache.get, ChunkCache.new, assocGet,
        List.find?]
      cases hp : produce file config <;> rfl

/-- C9: decompressing a compressed chunk restores it exactly — payload
bytes for a binary chunk, the row array (through the JSON round trip) for a
lines chunk — with `index`, `total` and `type` unchanged.  The round-trip
contracts of the external DEFLATE and JSON/UTF-8 codecs are assumed
pointwise at the compressed payload. -/
theorem compress_decompress_roundtrip (κ : Codec) (c : Chunk)
    (hbin : ∀ b, c.data = ChunkData.binary b → κ.inflate (κ.deflate b) = b)
    (hlin : ∀ rows, c.data = ChunkData.lines rows →
      κ.parseRows (κ.bytesToStr (κ.inflate
        (κ.deflate (κ.strToBytes (κ.stringify rows))))) = some rows) :
    decompress κ (compress κ c) = some c := by
  rcases c with ⟨data, index, total⟩
  cases data with
  | binary b =>
    have h := hbin b rfl
    simp [compress, decompress, compressBlob, Chunk.type, h]
  | lines rows =>
    have h := hlin rows rfl
    simp [compress, decompress, compressStringArray, decompressStringArray,
      Chunk.type, h]

/-- Witness for C9: a two-byte binary chunk under the identity codec. -/
theorem compress_decompress_roundtrip_witness :
    decompress idCodec
        (compress idCodec
          { data := ChunkData.binary [7, 8], index := 3, total := 4 }) =
      some { data := ChunkData.binary [7, 8], index := 3, total := 4 } :=
  compress_decompress_roundtrip idCodec _
    (fun b hb => by cases hb; rfl)
    (fun rows hr => by cases hr)

/-- Helper: `ceilDiv 0 b = 0`. -/
theorem ceilDiv_zero (b : Nat) : ceilDiv 0 b = 0 := by
  cases b with
  | zero => rfl
  | succ n =>
    unfold ceilDiv
    exact Nat.div_eq_of_lt (by omega)

/-- Helper: for positive divisor, `ceilDiv a b = 0` exactly when `a = 0`. -/
theorem ceilDiv_eq_zero_iff {a b : Nat} (hb : 0 < b) :
    ceilDiv a b = 0 ↔ a = 0 := by
  constructor
  · intro h
    by_contra ha
    have h1 : 1 ≤ ceilDiv a b := by
      unfold ceilDiv
      rw [Nat.le_div_iff_mul_le hb]
      omega
    omega
  · rintro rfl
    exact ceilDiv_zero b

/-- Helper: peel one block off a positive ceiling quotient. -/
theorem ceilDiv_sub {a b : Nat} (hb : 0 < b) (ha : 0 < a) :
    ceilDiv a b = ceilDiv (a - b) b + 1 := by
  rcases le_or_lt a b with h | h
  · have h0 : a - b = 0 := by omega
    rw [h0, ceilDiv_zero]
    unfold ceilDiv
    exact Nat.div_eq_of_lt_le (by omega) (by omega)
  · have he : a + b - 1 = (a - b + b - 1) + b := by omega
    unfold ceilDiv
    rw [he, Nat.add_div_right _ hb]

/-- Helper: closed form of the `createSizeBasedChunks` loop.  Starting at
offset `k * N` with `c` blocks left (`c = ⌈(len − k·N) / N⌉`), the loop
returns the `c` chunks whose `i`-th element covers
`[(k+i)·N, min((k+i+1)·N, len))` and carries index `j + i`. -/
theorem sizeChunksLoop_closed (bytes : List Nat) (N : Nat) (hN : 0 < N)
    (config : FileTypeConfig) (total : Nat) :
    ∀ c k j, ceilDiv (bytes.length - k * N) N = c →
      sizeChunksLoop bytes N hN config total (k * N) j =
        .ok ((List.range c).map (fun i =>
          ({ data := ChunkData.binary
               (sliceBytes bytes ((k + i) * N)
                 (min ((k + i + 1) * N) bytes.length)),
             index := j + i, total := total } : Chunk))) := by
  intro c
  induction c with
  | zero =>
    intro k j hc
    have h0 : bytes.length - k * N = 0 := (ceilDiv_eq_zero_iff hN).mp hc
    have hnl : ¬ k * N < bytes.length := by omega
    rw [sizeChunksLoop]
    simp [hnl]
  | succ c ih =>
    intro k j hc
    have hpos : 0 < bytes.length - k * N := by
      by_contra h
      have h0 : bytes.length - k * N = 0 := by omega
      rw [h0, ceilDiv_zero] at hc
      omega
    have hlt : k * N < bytes.length := by omega
    have hkn : k * N + N = (k + 1) * N := by ring
    have hc2 : ceilDiv (bytes.length - (k + 1) * N) N = c := by
      have hstep := ceilDiv_sub hN hpos
      have harith : bytes.length - k * N - N =
          bytes.length - (k + 1) * N := by omega
      rw [harith] at hstep
      omega
    rw [sizeChunksLoop, dif_pos hlt]
    simp only [processChunk, validateChunk, Chunk.type, if_true]
    rcases le_or_lt ((k + 1) * N) bytes.length with hle | hgt
    · have hmin : min (k * N + N) bytes.length = (k + 1) * N := by
        rw [hkn]
        exact min_eq_left hle
      rw [hmin, ih (k + 1) (j + 1) hc2]
      simp only [List.range_succ_eq_map, List.map_cons, List.map_map]
      congr 1
      congr 1
      · simp only [Nat.add_zero]
        rw [min_eq_left hle]
      · refine List.map_congr_left (fun i _ => ?_)
        simp only [Function.comp_apply, Nat.succ_eq_add_one]
        have e1 : k + 1 + i = k + (i + 1) := by omega
        have e2 : j + 1 + i = j + (i + 1) := by omega
        rw [e1, e2]
    · have hmin : min (k * N + N) bytes.length = bytes.length := by
        rw [hkn]
        exact min_eq_right (le_of_lt hgt)
      have hstop : sizeChunksLoop bytes N hN config total bytes.length (j + 1) =
          .ok [] := by
        rw [sizeChunksLoop]
        simp
      have hc0 : c = 0 := by
        have h1 : ceilDiv (bytes.length - k * N) N = 1 := by
          have hstep := ceilDiv_sub hN hpos
          have h2 : bytes.length - k * N - N = 0 := by omega
          rw [h2, ceilDiv_zero] at hstep
          omega
        omega
      subst hc0
      rw [hmin, hstop]
      rw [show List.range 1 = [0] from rfl]
      simp [min_eq_right (le_of_lt hgt)]

/-- C2: for a file of size `S` and chunk size `N > 0`, size-based chunking
returns exactly `⌈S/N⌉` chunks where chunk `i` is the byte range
`[i·N, min((i+1)·N, S))` with `index = i` and `total = ⌈S/N⌉`; an empty
file yields no chunks; every byte position below `S` is covered by exactly
one chunk range (so the chunks are non-overlapping and cover `[0, S)`); and
consecutive chunks are contiguous (each non-final chunk ends where the next
starts). -/
theorem createSizeBasedChunks_spec (file : SFile) (N : Nat)
    (config : FileTypeConfig) (hN : 0 < N) :
    (createSizeBasedChunks file N hN config =
      .ok ((List.range (ceilDiv file.size N)).map (fun i =>
        ({ data := ChunkData.binary
             (sliceBytes file.bytes (i * N) (min ((i + 1) * N) file.size)),
           index := i, total := ceilDiv file.size N } : Chunk))))
    ∧ (file.size = 0 → createSizeBasedChunks file N hN config = .ok [])
    ∧ (∀ b, b < file.size →
        ∃! i, i < ceilDiv file.size N ∧ i * N ≤ b ∧
          b < min ((i + 1) * N) file.size)
    ∧ (∀ i, i + 1 < ceilDiv file.size N →
        min ((i + 1) * N) file.size = (i + 1) * N) := by
  have hc : ceilDiv (file.bytes.length - 0 * N) N = ceilDiv file.size N := by
    simp [SFile.size]
  have hmain := sizeChunksLoop_closed file.bytes N hN config
    (ceilDiv file.size N) (ceilDiv file.size N) 0 0 hc
  rw [Nat.zero_mul] at hmain
  simp only [Nat.zero_add] at hmain
  have hfirst : createSizeBasedChunks file N hN config =
      .ok ((List.range (ceilDiv file.size N)).map (fun i =>
        ({ data := ChunkData.binary
             (sliceBytes file.bytes (i * N) (min ((i + 1) * N) file.size)),
           index := i, total := ceilDiv file.size N } : Chunk))) := by
    simpa [createSizeBasedChunks, SFile.size] using hmain
  refine ⟨hfirst, ?_, ?_, ?_⟩
  · intro h0
    rw [hfirst, h0, ceilDiv_zero]
    simp
  · intro b hb
    refine ⟨b / N, ⟨?_, ?_, ?_⟩, ?_⟩
    · have h1 : 0 < file.size := by omega
      have h2 : ceilDiv file.size N = (file.size - 1) / N + 1 := by
        unfold ceilDiv
        have he : file.size + N - 1 = (file.size - 1) + N := by omega
        rw [he, Nat.add_div_right _ hN]
      have h3 : b / N ≤ (file.size - 1) / N :=
        Nat.div_le_div_right (by omega)
      omega
    · exact Nat.div_mul_le_self b N
    · rw [lt_min_iff]
      refine ⟨?_, hb⟩
      have h1 := Nat.div_add_mod b N
      have h2 := Nat.mod_lt b hN
      have h3 : (b / N + 1) * N = N * (b / N) + N := by ring
      omega
    · rintro y ⟨hy1, hy2, hy3⟩
      have h4 : b < (y + 1) * N := lt_of_lt_of_le hy3 (min_le_left _ _)
      exact (Nat.div_eq_of_lt_le hy2 h4).symm
  · intro i hi
    apply min_eq_left
    have h1 : i + 2 ≤ ceilDiv file.size N := by omega
    unfold ceilDiv at h1
    have h2 : (i + 2) * N ≤ file.size + N - 1 :=
      (Nat.le_div_iff_mul_le hN).mp h1
    have h3 : (i + 2) * N = (i + 1) * N + N := by ring
    omega

/-- Positivity of the witness chunk size. -/
theorem twoPos : 0 < 2 := Nat.succ_pos 1

/-- Witness for C2: the five-byte file `wFile` with chunk size 2 — the
closed-form chunk list instantiated at a concrete input. -/
theorem createSizeBasedChunks_spec_witness :
    0 < 2 ∧
      createSizeBasedChunks wFile 2 twoPos wConfig =
        .ok ((List.range (ceilDiv wFile.size 2)).map (fun i =>
          ({ data := ChunkData.binary
               (sliceBytes wFile.bytes (i * 2) (min ((i + 1) * 2) wFile.size)),
             index := i, total := ceilDiv wFile.size 2 } : Chunk))) :=
  ⟨twoPos, (createSizeBasedChunks_spec wFile 2 wConfig twoPos).1⟩

end StreamFlow
